import Mathlib

/-!
Verification of the AI-assisted field-extraction and accuracy-measurement
subsystem of the legal-dashboard timesheet application.

The definitions below are a shallow embedding of
`deploy_package/routes/hunyuan.py` (center routing, prompt building, the
extraction client's response handling and post-filter) and of
`backend/models.py` (`AIFeedback`: feedback recording and accuracy
computation).  Python dicts are modelled as association lists with unique
keys in insertion order, the SQLite `ai_feedback` table as a list of
records, timestamps as natural numbers, and the external HTTP transport /
JSON library as explicit oracle parameters.  Python's `str.lower` is
modelled by ASCII lowercasing (the keyword tables involved are ASCII or
Chinese, where the two agree), `\d` by ASCII digits and `\s` by ASCII
whitespace.
-/

namespace LegalDashboard

/-- Prefix test: `listStarts n h` holds when the char list `n` is a prefix of `h`. -/
def listStarts : List Char → List Char → Bool
  | [], _ => true
  | _ :: _, [] => false
  | a :: as, b :: bs => a = b && listStarts as bs

/-- Substring test: `infixAt n h` holds when `n` occurs contiguously somewhere in `h`
(the semantics of Python's `needle in hay` / an unanchored `re.search`). -/
def infixAt : List Char → List Char → Bool
  | n, [] => listStarts n []
  | n, c :: t => listStarts n (c :: t) || infixAt n t

/-- Python `needle in hay` on strings. -/
def containsSub (hay needle : String) : Bool :=
  infixAt needle.data hay.data

/-- Run a positional matcher at every suffix of the char list
(`re.search` semantics: a match anywhere suffices). -/
def anySuffix (p : List Char → Bool) : List Char → Bool
  | [] => p []
  | c :: t => p (c :: t) || anySuffix p t

/-- Python `str.lower()`, restricted to ASCII case mapping. -/
def pyLower (s : String) : String :=
  String.mk (s.data.map Char.toLower)

/-- Python regex `\s` (ASCII part), also the whitespace stripped by
`str.strip()`. -/
def isPySpace (c : Char) : Bool :=
  c = ' ' || c = '\t' || c = '\n' || c = '\r' || c = '\x0b' || c = '\x0c'

/-- Python `str.strip()` (ASCII whitespace). -/
def pyStrip (s : String) : String :=
  String.mk (((s.data.dropWhile isPySpace).reverse.dropWhile isPySpace).reverse)

/-- The Chinese numerals of the character class `[一二三四五六七八九十]`. -/
def isCnNumeral (c : Char) : Bool :=
  ['一', '二', '三', '四', '五', '六', '七', '八', '九', '十'].contains c

/-- Consume one-or-more chars satisfying `p` (regex `p+`), greedily;
`none` when the first char does not satisfy `p`. -/
def skipMany1 (p : Char → Bool) : List Char → Option (List Char)
  | [] => none
  | c :: rest => if p c then some (rest.dropWhile p) else none

/-- Consume an optional single char `c0` (regex `c0?`). -/
def skipOpt (c0 : Char) : List Char → List Char
  | [] => []
  | c :: rest => if c = c0 then rest else c :: rest

/-- Does the list start with a char satisfying `p`? -/
def headSat (p : Char → Bool) : List Char → Bool
  | [] => false
  | c :: _ => p c

/-- Matcher for `\d+\.?\d*\s*[hH小时]` at the current position.
(The unit is a character class: any single one of `h`, `H`, `小`, `时`.) -/
def patDigitsUnit (cs : List Char) : Bool :=
  match skipMany1 Char.isDigit cs with
  | none => false
  | some cs1 =>
      let cs2 := (skipOpt '.' cs1).dropWhile Char.isDigit
      let cs3 := cs2.dropWhile isPySpace
      headSat (fun c => c = 'h' || c = 'H' || c = '小' || c = '时') cs3

/-- Matcher for `\d+\.?\d*\s*hours?` at the current position (a match
exists iff the mandatory part `...hour` matches; the trailing `s?` never
decides existence). -/
def patDigitsHours (cs : List Char) : Bool :=
  match skipMany1 Char.isDigit cs with
  | none => false
  | some cs1 =>
      let cs2 := (skipOpt '.' cs1).dropWhile Char.isDigit
      let cs3 := cs2.dropWhile isPySpace
      listStarts "hour".data cs3

/-- Matcher for `[一二三四五六七八九十]+小时` at the current position. -/
def patCnHours (cs : List Char) : Bool :=
  match skipMany1 isCnNumeral cs with
  | none => false
  | some cs1 => listStarts "小时".data cs1

/-- Matcher for `\d+\s*分钟` at the current position. -/
def patDigitsMinutes (cs : List Char) : Bool :=
  match skipMany1 Char.isDigit cs with
  | none => false
  | some cs1 => listStarts "分钟".data (cs1.dropWhile isPySpace)

/-- Matcher for `[一二三四五六七八九十]+分钟` at the current position. -/
def patCnMinutes (cs : List Char) : Bool :=
  match skipMany1 isCnNumeral cs with
  | none => false
  | some cs1 => listStarts "分钟".data cs1

/-- Translation of `check_hours_mentioned` (hunyuan.py:183-199): does any of the fixed
time-expression patterns match somewhere in the message? -/
def check_hours_mentioned (user_message : String) : Bool :=
  anySuffix patDigitsUnit user_message.data
  || anySuffix patDigitsHours user_message.data
  || containsSub user_message "半小时"
  || containsSub user_message "半个小时"
  || containsSub user_message "一个半小时"
  || containsSub user_message "两个半小时"
  || anySuffix patCnHours user_message.data
  || anySuffix patDigitsMinutes user_message.data
  || anySuffix patCnMinutes user_message.data


/-! ## Python values and dict operations -/

/-- Model of the Python/JSON values occurring in an extraction result. -/
inductive PyVal where
  | str (s : String)
  | int (n : Int)
  | float (q : Rat)
  | bool (b : Bool)
  | none
  deriving DecidableEq, Repr

/-- Membership of a key in a dict (Python `key in d`). -/
def hasKey (d : List (String × PyVal)) (k : String) : Bool :=
  d.any (fun kv => kv.1 = k)

/-- Deletion of a key from a dict (Python `del d[key]`; keys are unique in
a Python dict, so filtering is exact). -/
def eraseKey (d : List (String × PyVal)) (k : String) : List (String × PyVal) :=
  d.filter (fun kv => kv.1 ≠ k)

/-! ## Per-center prompt constants (hunyuan.py:16-151) -/

/-- Constant `INVEST_LEGAL_PROMPT` of hunyuan.py. -/
def INVEST_LEGAL_PROMPT : String :=
  "你是投资法务中心的工时录入助手，负责从用户的自然语言描述中提取工时信息并匹配到对应的表单字段。

**业务背景知识：**
投资法务中心主要处理投资相关的法务工作，包括M&A交易、投资项目法务支持、资本市场合规等。

**OKR/BSC Item (关键任务) 常见选项及Narrative关键词映射：**

1. **投资项目全流程法务支持 Full-process legal support for investments** (最常用，占比72%)
   - 关键词：DD/LDD/尽职调查、SPA/SHA/协议、TS/Term Sheet/条款清单、KYC、审阅/review、起草/draft、谈判/negotiate、M&A/并购、IPO/上市、基金/fund、证券/securities、会议/call、股东/shareholder
   - 典型Narrative：审阅SPA、修改TS、KYC文件准备、DD报告审阅、weekly call、项目进度讨论、股东核查、股东特殊权利

2. **精细化管理工具搭建 Adoption of refined management tools** (2.3%)
   - 关键词：管理工具、系统、流程优化、VOC

3. **资本市场、投融资活动创新突破 Innovative breakthroughs in investments and capital market transactions** (1.4%)
   - 关键词：资本市场、创新、投融资

4. **控股和重点投资公司法务风险管理 Legal risk management for controlled and key invested portfolios** (1.1%)
   - 关键词：控股、重点投资、风险管理、投后管理

5. **海外投资合规管理 Overseas investment compliance management** (1.0%)
   - 关键词：海外/overseas、境外、合规

6. **国际业务(投资)监管应对 Interaction with regulators for international investments** (0.8%)
   - 关键词：监管/regulatory、国际业务

7. **反洗钱及制裁法务支持 Legal support for anti-money laundering and sanctions compliance** (0.4%)
   - 关键词：AML/反洗钱、制裁/sanction

**Work Category (工作类型) 常见选项：**
- Drafting/reviewing/negotiating legal documents (起草/审阅/谈判法律文件) - 最常用
- Conducting LDD/reviewing LDD results (进行LDD/审阅LDD结果)
- Participating in meetings/calls (参加会议/电话会议)
- Conducting legal research (法律研究)
- Providing training sessions/knowledge sharing (培训/知识分享)
- Preparing knowhow/memo/client alert (准备知识库/备忘录)
- Others (其他)"

/-- Constant `CORP_INTL_PROMPT` of hunyuan.py. -/
def CORP_INTL_PROMPT : String :=
  "你是公司及国际金融事务中心的工时录入助手，负责从用户的自然语言描述中提取工时信息并匹配到对应的表单字段。

**业务背景知识：**
公司及国际金融事务中心主要处理公司法务、国际业务合规、金融监管应对等工作。

**OKR/BSC Item (关键任务) 常见选项及Narrative关键词映射：**

1. **CTD-0103 境内外主体/办公室合规管理 Compliance management for domestic and overseas entities/offices** (最常用)
   - 关键词：主体/entity、办公室/office、合规/compliance、公司/corporate、租赁/lease

2. **CTD-0104 境内外金融业务资质申请 Application for domestic and overseas financial business licenses**
   - 关键词：牌照/license、资质、申请、金融业务

3. **CTD-0201 国际监管趋势监测、预判 Monitoring and forecasting international regulatory trends**
   - 关键词：监管/regulatory、趋势、预判、政策

4. **CTD-0202 国际业务监管应对 Interaction with regulators for international business**
   - 关键词：监管应对、regulators、国际业务

5. **CTD-0301 反洗钱及制裁法务支持 Legal support for anti-money laundering and sanctions compliance**
   - 关键词：AML/反洗钱、制裁/sanction、合规

**Work Category (工作类型) 常见选项：**
- Drafting/reviewing/commenting on documents (起草/审阅/评论文件) - 最常用
- Discussing with internal legal team/internal stakeholders/external counsels (内部/外部讨论)
- Conducting legal analysis and research (法律分析和研究)
- Participating training sessions/team meetings (参加培训/团队会议)
- Others (其他)"

/-- Constant `BIZ_COMPLIANCE_PROMPT` of hunyuan.py. -/
def BIZ_COMPLIANCE_PROMPT : String :=
  "你是业务管理与合规检测中心的工时录入助手，负责从用户的自然语言描述中提取工时信息并匹配到对应的表单字段。

**核心判断逻辑（按优先级）：**

1. **香港钱包/金管局相关** → category=_4业务管理相关_项目跟进, task=4.6 境外主体合规管理, tag=_BSC, keyTask=全面支持香港钱包合规管理及监管沟通等工作
   关键词：香港钱包、金管局、HKMA、境外合规、IRA报告、上云

2. **涉俄制裁/falcon相关** → category=_2检测相关_快速, task=2.2 涉俄制裁风险管理与应对有效性检测, tag=_OKR, keyTask=合规检测项目开展
   关键词：涉俄、制裁、falcon、问题清单、检测发现、检测汇报

3. **梧桐平台相关** → category=_1检测相关_常规, task=1.5 梧桐稳智平台 采购与合规性检测, tag=_OKR, keyTask=合规检测项目开展
   关键词：梧桐、稳智平台

4. **AI/F8相关** → category=_7公共_执业管理, task=7.6 AI信息赋能能力建设, tag=_BSC, keyTask=AI信息赋能能力持续建设
   关键词：AI、F8、小程序开发、知识库建设、外采

5. **反洗钱培训/课程物料** → category=_7公共_执业管理, task=7.4 金融合规培训体系升级, tag=_BSC, keyTask=金融合规培训活动运营
   关键词：反洗钱课程、培训物料、课程制作、培训体系

6. **消保项目** → category=_4业务管理相关_项目跟进, task=4.5 消保相关项目, tag=_BSC/_Others
   关键词：消保、函询、一号位、融担

7. **S1季报/重大信息/谈参** → category=_6公共_部门公共事务支持, task=6.5 管理类总结, tag=_BSC, keyTask=金融职能支持部门信息上报运营
   关键词：S1季报、重大信息、谈参、信息周报、leon汇报议题

8. **BSC/OKR整理调整** → category=_3业务管理相关_业务战略总结, task=3.2 部门年度BSC\\OKR制定、调整, tag=_BSC, keyTask=五部门战略工作机制运营维护
   关键词：BSC整理、OKR调整、PA BSC、BSC修订

9. **BSC/OKR会议** → category=_3业务管理相关_业务战略总结, task=3.1 OKR、BSC会议, tag=_BSC
   关键词：BSC会议、OKR会议、BSC Review会议

10. **预算/研发费用** → category=_6公共_部门公共事务支持, task=6.3 预算管理 或 6.4 IT管理, tag=_BSC
    关键词：预算、研发费用、财管、律所费用

11. **VOC/工时数据review** → category=_5公共_流程机制, task=5.2 VOC量化评估, tag=_OKR, keyTask=VOC量化评估体系
    关键词：VOC、工时数据、量化评估、工时填报系统

12. **流程梳理/分工讨论** → category=_5公共_流程机制, task=5.1 跨部门/团队流程梳理
    关键词：流程梳理、分工讨论、跨部门流程

13. **CTD会议/例会** → category=_6公共_部门公共事务支持, task=6.1 各部门管理例会及业务会议, tag=_BSC, keyTask=五部门战略工作机制运营维护
    关键词：CTD会议、PA例会、管理例会、业管例会

14. **offsite/团队活动** → category=_9其他, task=9.2 团队/部门例会, tag=_Others, keyTask=无
    关键词：offsite、团队展示、团队活动

15. **常规检测项目** → category=_1检测相关_常规, task=1.2 整体合规/法务工作机制检测, tag=_OKR, keyTask=合规检测项目开展
    关键词：CFIUS、检测项目、访谈方案、调研问卷、抽样检查

16. **模糊/无法归类** → category=_6公共_部门公共事务支持, task=6.6 其他, tag=_Others, keyTask=无
    关键词：沟通、协调、其他事务

**工作类型(workType)判断规则：**
- 项目方案讨论、制定：讨论、方案、制定、规划、设计、研议
- 项目调研、访谈、资料查阅学习等工作：调研、访谈、学习、阅读、研读
- 项目执行相关的数据调取/分析、抽样工作：数据、抽样、分析、调取、OKR映射
- 项目执行结果分析、总结、汇报工作：汇报、总结、报告、review、整理、编制
- 项目跟踪：跟进、跟踪、进度
- 部门各类会议支持（包括会议前期准备、会议召开、会议总结等工作）：会议、例会、纪要、会前准备、视频准备
- 部门内/跨部门知识分享：分享、知识分享
- 部门拉通类项目推进：拉通、推进、协调多部门、物料制作、体系升级
- 部门各类公共支持事务答疑：答疑、支持、协调、沟通、上报
- 团队、部门目标管理工作：目标管理、香港钱包合规管理
- 参与工作相关的各类培训：参加培训、课程学习、培训课程
- 其他：无法归类、杂项、考勤、周报设计"

/-- Hours clause used when a time expression was detected (hunyuan.py:227). -/
def HOURS_RULE_MENTIONED : String :=
  "1. hours: 工作小时数（数字），\"两小时\"=2，\"半小时\"=0.5，\"一个半小时\"=1.5，\"1h\"=1，\"2.5h\"=2.5，\"30分钟\"=0.5"

/-- Hours clause used when no time expression was detected (hunyuan.py:229). -/
def HOURS_RULE_ABSENT : String :=
  "1. hours: 用户没有提到时间，**绝对不要返回hours字段**"

/-- Fixed tail of the system prompt following the hours rule (hunyuan.py:238-249). -/
def PROMPT_TAIL : String :=
  "
2. 选项格式：方括号内是父级分类名称（如_OKR、_BSC、_Others），后面是实际的选项值
3. 你必须返回实际的选项值，不是父级分类名
4. 对于tag字段，必须返回子选项的值，不能返回父级分类
5. 根据工作内容智能匹配最相关的选项
6. **极其重要：只返回用户明确提到或可以从内容直接推断的字段！**
   - 如果用户没有提到小组/Team，绝对不要返回team字段
   - 如果用户没有提到项目名称，绝对不要返回dealMatterName字段
   - 如果用户没有提到时间，绝对不要返回hours字段
   - 不要猜测、不要编造、不要假设任何信息
7. description: 工作的具体描述，从用户输入中提取或总结

**只返回JSON对象，不要有其他文字。只返回能从用户输入中直接提取或推断的字段。**"

/-! ## Center routing (hunyuan.py:154-180 and 336-343) -/

/-- Keyword table for the investment-legal center (hunyuan.py:159-161). -/
def invest_keywords : List String :=
  ["投资法务", "investment", "m&a", "spa", "sha", "ldd", "term sheet",
   "ipo", "并购", "尽职调查", "资本市场", "capital market", "fund", "基金",
   "deal/matter", "shareholder", "股东"]

/-- Keyword table for the corporate/international-finance center (hunyuan.py:167-169). -/
def corp_keywords : List String :=
  ["公司及国际金融", "国际金融事务", "corporate", "international",
   "tencent cloud", "wechat pay", "fintech", "entity", "office",
   "境内外主体", "国际监管", "regulatory"]

/-- Keyword table for the business-compliance center (hunyuan.py:175). -/
def biz_keywords : List String :=
  ["业务管理", "合规检测", "检测项目", "voc", "五部门", "香港钱包"]

/-- Translation of `detect_center_from_message` (hunyuan.py:154-180): scan the
lowercased concatenation of message and serialized schema for the per-center
keyword tables, in the fixed center order. -/
def detect_center_from_message (user_message fields_info : String) : String :=
  let combined := pyLower (user_message ++ " " ++ fields_info)
  if invest_keywords.any (fun kw => containsSub combined kw) then "invest"
  else if corp_keywords.any (fun kw => containsSub combined kw) then "corp"
  else if biz_keywords.any (fun kw => containsSub combined kw) then "biz"
  else "default"

/-- Python truthiness of the optional `center` request value (`not center`):
true for `None` and for the empty string. -/
def centerFalsy : Option String → Bool
  | Option.none => true
  | some c => c = ""

/-- Translation of the teamName-based center inference in `parse_timesheet`
(hunyuan.py:336-343): when no usable center came with the request and a team
name is present, match fixed substrings of the lowercased team name; on no
match the center is left as it was. -/
def infer_center (center : Option String) (team_name : String) : Option String :=
  if centerFalsy center ∧ team_name ≠ "" then
    let team_lower := pyLower team_name
    if containsSub team_lower "投资法务" || containsSub team_lower "investment" then
      some "invest"
    else if containsSub team_lower "公司及国际金融" || containsSub team_lower "国际金融事务" then
      some "corp"
    else if containsSub team_lower "业务管理" || containsSub team_lower "合规检测" then
      some "biz"
    else center
  else center

/-- Center actually used by `call_hunyuan_api` (hunyuan.py:209-210): the
message/schema keyword scan runs only when the center argument is `None`. -/
def resolve_center (center : Option String) (user_message fields_info : String) : String :=
  match center with
  | Option.none => detect_center_from_message user_message fields_info
  | some c => c

/-- Business-prompt selection of `call_hunyuan_api` (hunyuan.py:213-220);
any unknown center falls back to the business-compliance prompt. -/
def select_business_prompt (center : String) : String :=
  if center = "invest" then INVEST_LEGAL_PROMPT
  else if center = "corp" then CORP_INTL_PROMPT
  else if center = "biz" then BIZ_COMPLIANCE_PROMPT
  else BIZ_COMPLIANCE_PROMPT

/-- System prompt built by `call_hunyuan_api` (hunyuan.py:209-249). -/
def build_system_prompt (user_message fields_info : String) (center : Option String) : String :=
  let business_prompt := select_business_prompt (resolve_center center user_message fields_info)
  let hours_rule :=
    if check_hours_mentioned user_message then HOURS_RULE_MENTIONED else HOURS_RULE_ABSENT
  business_prompt ++ "\n\n用户需要填写的表单字段如下：\n" ++ fields_info ++
    "\n\n**解析规则：**\n" ++ hours_rule ++ PROMPT_TAIL

/-! ## Post-filter value cleanup (hunyuan.py:283-288) -/

/-- Scan for the first `]` reachable without crossing a newline and return
what follows it (the lazy `.*?` of the pattern cannot match `\n`). -/
def afterFirstRB : List Char → Option (List Char)
  | [] => Option.none
  | c :: rest =>
      if c = ']' then some rest
      else if c = '\n' then Option.none
      else afterFirstRB rest

/-- Translation of `re.sub(r'^\[.*?\]\s*', '', value)` (hunyuan.py:287): strip
one leading bracketed parent-label prefix and the whitespace after it. -/
def stripBracketLabel (s : String) : String :=
  match s.data with
  | '[' :: rest =>
      match afterFirstRB rest with
      | some after => String.mk (after.dropWhile isPySpace)
      | Option.none => s
  | _ => s

/-- Value cleanup applied to every string-valued field of the parsed dict
(hunyuan.py:284-288). -/
def cleanVal : PyVal → PyVal
  | .str s => .str (stripBracketLabel s)
  | v => v

/-! ## Extraction client (hunyuan.py:202-316) -/

/-- Fixed request timeout passed to `requests.post` (hunyuan.py:265). -/
def request_timeout_seconds : Nat := 30

/-- Outcome of the external HTTP round trip (`requests.post` + `.json()`),
as observed by `call_hunyuan_api`: a timeout exception, some other
exception, or a decoded response body carrying the completion contents of
`result["choices"]` and the message of an optional `result["error"]`. -/
inductive UpstreamOutcome where
  | timeout
  | exn (msg : String)
  | response (choices : List String) (errMsg : Option String)

/-- Shape of the dict returned by `call_hunyuan_api`; keys that a given
branch does not set are modelled by their defaults. -/
structure HunyuanResult where
  success : Bool
  data : List (String × PyVal) := []
  raw : Option String := Option.none
  parse_error : Bool := false
  error : Option String := Option.none
  deriving DecidableEq, Repr

/-- Python `sep.join(parts)`. -/
def joinSep (sep : String) : List String → String
  | [] => ""
  | [a] => a
  | a :: rest => a ++ sep ++ joinSep sep rest

/-- Markdown-fence stripping applied to the completion text before JSON
parsing (hunyuan.py:273-280). -/
def stripMarkdown (content : String) : String :=
  let content := pyStrip content
  let content :=
    if content.startsWith "```" then
      let lines := content.splitOn "\n"
      if lines.length > 2 then joinSep "\n" (lines.drop 1).dropLast else content
    else content
  let content := pyStrip content
  if content.startsWith "json" then pyStrip (content.drop 4) else content

/-- Fixed keyword set of the team/group gate (hunyuan.py:298-299). -/
def team_keywords : List String :=
  ["小组", "团队", "team", "1组", "2组", "3组", "4组", "5组",
   "一组", "二组", "三组", "四组", "五组", "group"]

/-- Translation of `call_hunyuan_api` (hunyuan.py:202-316).  The external
transport is the oracle `upstream` (fed the system prompt it would POST),
and the JSON library is the oracle `parseJson` (Python `json.loads`,
`Option.none` modelling `json.JSONDecodeError`). -/
def call_hunyuan_api (apiKeyConfigured : Bool)
    (upstream : String → UpstreamOutcome)
    (parseJson : String → Option (List (String × PyVal)))
    (user_message fields_info : String) (center : Option String) : HunyuanResult :=
  if ¬apiKeyConfigured then
    { success := false, error := some "混元API密钥未配置" }
  else
    let system_prompt := build_system_prompt user_message fields_info center
    match upstream system_prompt with
    | .timeout => { success := false, error := some "API请求超时" }
    | .exn msg => { success := false, error := some msg }
    | .response choices errMsg =>
      match choices with
      | content :: _ =>
          let content := stripMarkdown content
          match parseJson content with
          | some parsed_data =>
              let parsed_data := parsed_data.map (fun kv => (kv.1, cleanVal kv.2))
              let parsed_data :=
                if ¬check_hours_mentioned user_message ∧ hasKey parsed_data "hours" then
                  eraseKey parsed_data "hours"
                else parsed_data
              let user_msg_lower := pyLower user_message
              let parsed_data :=
                if ¬team_keywords.any (fun kw => containsSub user_msg_lower kw) ∧
                    hasKey parsed_data "team" then
                  eraseKey parsed_data "team"
                else parsed_data
              { success := true, data := parsed_data, raw := some content }
          | Option.none =>
              { success := true, data := [], raw := some content, parse_error := true }
      | [] =>
          match errMsg with
          | some m => { success := false, error := some m }
          | Option.none => { success := false, error := some "API返回格式异常" }

/-! ## Field schema and options-catalog flattening (hunyuan.py:345-369) -/

/-- Node of a field's option tree: a selectable value, a human label, and
ordered child options. -/
inductive OptionNode where
  | mk (value : String) (label : String) (children : List OptionNode)

/-- Selectable value of an option node. -/
def OptionNode.value : OptionNode → String
  | .mk v _ _ => v

/-- Human label of an option node. -/
def OptionNode.label : OptionNode → String
  | .mk _ l _ => l

/-- Child options of an option node. -/
def OptionNode.children : OptionNode → List OptionNode
  | .mk _ _ cs => cs

/-- Field descriptor of the inbound schema: key, label, required flag and
option tree. -/
structure FormField where
  key : String
  label : String
  required : Bool
  options : List OptionNode

/-- Entry prefix used by the flattener (hunyuan.py:357): a bracketed parent
label, or nothing at top level. -/
def optionEntryPfx (parent : String) : String :=
  if parent ≠ "" then "[" ++ parent ++ "] " else ""

mutual
/-- Depth-first flattening of one option node (hunyuan.py:355-360): emit the
node's value with the parent-label prefix, then (when children exist)
recurse with the node's own label as parent. -/
def flattenOne (parent : String) : OptionNode → List String
  | .mk v l cs =>
      (optionEntryPfx parent ++ v) :: (if cs.isEmpty then [] else flattenList l cs)

/-- Depth-first flattening of a sibling list of option nodes. -/
def flattenList (parent : String) : List OptionNode → List String
  | [] => []
  | o :: rest => flattenOne parent o ++ flattenList parent rest
end

/-- Textual description of one field as built in `parse_timesheet`
(hunyuan.py:347-367): key/label/required line, then at most 80 flattened
option entries and, when more exist, a trailing total-count marker. -/
def field_desc (f : FormField) : String :=
  let d := "- " ++ f.key ++ ": " ++ f.label
  let d := if f.required then d ++ " (必填)" else d
  if ¬f.options.isEmpty then
    let flat_options := flattenList "" f.options
    if ¬flat_options.isEmpty then
      let d := d ++ "\n  可选值: " ++ joinSep ", " (flat_options.take 80)
      if flat_options.length > 80 then
        d ++ " ... 等共" ++ toString flat_options.length ++ "个选项"
      else d
    else d
  else d

/-- The serialized schema description `fields_info_str` (hunyuan.py:345-369). -/
def build_fields_info (fields : List FormField) : String :=
  joinSep "\n" (fields.map field_desc)

/-! ## The extraction endpoint `parse_timesheet` (hunyuan.py:319-374) -/

/-- Inbound request body of the extraction endpoint; each key of the JSON
object may be absent. -/
structure ParseRequest where
  message : Option String
  fields : Option (List FormField)
  center : Option String
  teamName : Option String

/-- Outcome of the endpoint: an HTTP-400 rejection with a human-readable
reason, or the result of the upstream extraction call.  `req = Option.none`
models a missing or empty (falsy) JSON body. -/
inductive ParseOutcome where
  | badRequest (reason : String)
  | ok (r : HunyuanResult)

/-- Whether the endpoint answered with an HTTP 400 rejection. -/
def ParseOutcome.isBadRequest : ParseOutcome → Bool
  | .badRequest _ => true
  | .ok _ => false

/-- Translation of `parse_timesheet` (hunyuan.py:319-374).  The upstream
call happens only in the `ok` branch. -/
def parse_timesheet (apiKeyConfigured : Bool)
    (upstream : String → UpstreamOutcome)
    (parseJson : String → Option (List (String × PyVal)))
    (req : Option ParseRequest) : ParseOutcome :=
  match req with
  | Option.none => .badRequest "请求数据为空"
  | some data =>
      let user_message := data.message.getD ""
      let fields := data.fields.getD []
      let center := data.center
      let team_name := data.teamName.getD ""
      if user_message = "" then .badRequest "消息内容为空"
      else
        let center := infer_center center team_name
        let fields_info_str := build_fields_info fields
        .ok (call_hunyuan_api apiKeyConfigured upstream parseJson
              user_message fields_info_str center)

/-! ## Feedback recorder: `AIFeedback` (backend/models.py:891-949) -/

/-- Python `isinstance(v, (int, float))` (`bool` is a subclass of `int`). -/
def isNumericPy : PyVal → Bool
  | .int _ => true
  | .float _ => true
  | .bool _ => true
  | _ => false

/-- Python `float(v)` on the numeric values. -/
def toQ : PyVal → Rat
  | .int n => n
  | .float q => q
  | .bool b => if b then 1 else 0
  | _ => 0

/-- Decimal rendering of an exactly-decimal rational, used to model
Python `str` on floats (`str(2.5) = "2.5"`, `str(2.0) = "2.0"`); rationals
with no finite decimal expansion fall back to a fraction rendering. -/
def floatRepr (q : Rat) : String :=
  if q.den = 1 then toString q.num ++ ".0"
  else
    match (List.range 28).find? (fun k => q.den ∣ 10 ^ k) with
    | some k =>
        let m := q.num.natAbs * (10 ^ k / q.den)
        let digits := toString (m % 10 ^ k)
        let digits := String.mk (List.replicate (k - digits.length) '0') ++ digits
        (if q.num < 0 then "-" else "") ++ toString (m / 10 ^ k) ++ "." ++ digits
    | Option.none => toString q.num ++ "/" ++ toString q.den

/-- Python `str(v)` for the modelled values. -/
def pyStr : PyVal → String
  | .str s => s
  | .int n => toString n
  | .float q => floatRepr q
  | .bool b => if b then "True" else "False"
  | .none => "None"

/-- One row of the `ai_feedback` table.  Columns that start NULL are
`Option`s; `submitted_at` is an abstract timestamp. -/
structure FeedbackRecord where
  id : Nat
  user_id : Nat
  session_id : String
  user_input : String
  ai_result : List (String × PyVal)
  final_result : Option (List (String × PyVal)) := Option.none
  field_count : Option Nat := Option.none
  matched_count : Option Nat := Option.none
  accuracy : Option Rat := Option.none
  timesheet_id : Option Nat := Option.none
  submitted_at : Option Nat := Option.none
  deriving DecidableEq, Repr

/-- The persisted `ai_feedback` table, in insertion order. -/
abbrev Store := List FeedbackRecord

/-- Next SQLite rowid. -/
def nextId (store : Store) : Nat :=
  (store.map FeedbackRecord.id).foldr max 0 + 1

/-- Translation of `AIFeedback.create` (models.py:894-905): insert a pending
record and return its rowid. -/
def AIFeedback.create (store : Store) (user_id : Nat) (session_id user_input : String)
    (ai_result : List (String × PyVal)) : Store × Nat :=
  let fid := nextId store
  (store ++ [{ id := fid, user_id := user_id, session_id := session_id,
               user_input := user_input, ai_result := ai_result }], fid)

/-- Result of `SELECT ai_result FROM ai_feedback WHERE session_id = ?
ORDER BY id DESC LIMIT 1` (models.py:914): the row of greatest id among
those of the session, if any. -/
def latestFor (store : Store) (session_id : String) : Option FeedbackRecord :=
  (store.filter (fun r => r.session_id = session_id)).foldl
    (fun best r =>
      match best with
      | Option.none => some r
      | some b => if b.id < r.id then some r else some b)
    Option.none

/-- Python `final_result.get(key)`: absent keys and stored `None` values
are indistinguishable (both yield `None`, which the matching loop skips). -/
def getPy (d : List (String × PyVal)) (k : String) : Option PyVal :=
  match d.lookup k with
  | some PyVal.none => Option.none
  | r => r

/-- Per-field match test of the loop body (models.py:929-936): numeric
values compare with absolute tolerance 0.01, everything else as
whitespace-trimmed strings. -/
def valuesMatch (ai_value final_value : PyVal) : Bool :=
  if isNumericPy ai_value ∧ isNumericPy final_value then
    |toQ ai_value - toQ final_value| < 1 / 100
  else
    pyStrip (pyStr ai_value) = pyStrip (pyStr final_value)

/-- Translation of the matching loop of `update_final_result`
(models.py:921-936): fold over the original extraction result in insertion
order, skipping the `description` key, counting every other key as
comparable and as matched when `final_result` holds a matching value. -/
def computeCounts (ai_result final_result : List (String × PyVal)) : Nat × Nat :=
  ai_result.foldl
    (fun acc kv =>
      if kv.1 = "description" then acc
      else
        match getPy final_result kv.1 with
        | some fv => if valuesMatch kv.2 fv then (acc.1 + 1, acc.2 + 1) else (acc.1 + 1, acc.2)
        | Option.none => (acc.1 + 1, acc.2))
    (0, 0)

/-- Translation of `AIFeedback.update_final_result` (models.py:907-949):
locate the most recent record of the session; if none exists do nothing;
otherwise compute the counters from that record's `ai_result` and run
`UPDATE ai_feedback SET ... WHERE session_id = ?`, which writes the same
values into every row of the session. -/
def AIFeedback.update_final_result (store : Store) (session_id : String)
    (final_result : List (String × PyVal)) (timesheet_id : Option Nat)
    (now : Nat) : Store :=
  match latestFor store session_id with
  | Option.none => store
  | some row =>
      let counts := computeCounts row.ai_result final_result
      let field_count := counts.1
      let matched_count := counts.2
      let accuracy : Rat :=
        if field_count > 0 then (matched_count : Rat) / (field_count : Rat) * 100 else 0
      store.map (fun r =>
        if r.session_id = session_id then
          { r with final_result := some final_result,
                   field_count := some field_count,
                   matched_count := some matched_count,
                   accuracy := some accuracy,
                   timesheet_id := timesheet_id,
                   submitted_at := some now }
        else r)

/-- The per-key Boolean used below: does `final_result` hold a value that
matches `kv`? -/
def finalMatches (final_result : List (String × PyVal)) (kv : String × PyVal) : Bool :=
  match getPy final_result kv.1 with
  | some fv => valuesMatch kv.2 fv
  | Option.none => false

mutual
/-- Option values of one node in the same depth-first order (and the same
shape) as `flattenOne`: the node's own value, then its children's. -/
def valuesOne : OptionNode → List String
  | .mk v _ cs => v :: (if cs.isEmpty then [] else valuesList cs)

/-- Option values of a sibling list, depth first. -/
def valuesList : List OptionNode → List String
  | [] => []
  | o :: rest => valuesOne o ++ valuesList rest
end

/-! ## Helper lemmas -/

theorem hasKey_eraseKey_self (d : List (String × PyVal)) (k : String) :
    hasKey (eraseKey d k) k = false := by
  simp [hasKey, eraseKey, List.any_eq_true, List.mem_filter]

theorem hasKey_eraseKey_of_not (d : List (String × PyVal)) (k k' : String)
    (h : hasKey d k = false) : hasKey (eraseKey d k') k = false := by
  simp only [hasKey, eraseKey, List.any_eq_false, List.mem_filter] at *
  exact fun kv hkv => h kv hkv.1

theorem hasKey_cleanup (d : List (String × PyVal)) (k : String) :
    hasKey (d.map (fun kv => (kv.1, cleanVal kv.2))) k = hasKey d k := by
  simp [hasKey, List.any_map, Function.comp_def]

/-! ## Claim C1: the hours gate -/

/-- C1.  For every input message in which none of the fixed time-expression
patterns matches, the result returned by the extraction client contains no
`hours` key, whatever the upstream transport and model produced: the
post-filter deletes an `hours` key even if the model supplied one, and every
failure branch carries no data at all. -/
theorem claim_C1_hours_gate (apiKeyConfigured : Bool)
    (upstream : String → UpstreamOutcome)
    (parseJson : String → Option (List (String × PyVal)))
    (user_message fields_info : String) (center : Option String)
    (h : check_hours_mentioned user_message = false) :
    hasKey (call_hunyuan_api apiKeyConfigured upstream parseJson
      user_message fields_info center).data "hours" = false := by
  unfold call_hunyuan_api
  by_cases hk : apiKeyConfigured
  · simp only [hk, not_true_eq_false, if_false]
    cases hU : upstream (build_system_prompt user_message fields_info center) with
    | timeout => simp [hasKey]
    | exn m => simp [hasKey]
    | response choices errMsg =>
      cases choices with
      | nil => cases errMsg <;> simp [hasKey]
      | cons content rest =>
        dsimp only
        cases hp : parseJson (stripMarkdown content) with
        | none => simp [hasKey]
        | some parsed =>
          dsimp only
          by_cases h1 : (¬check_hours_mentioned user_message = true ∧
              hasKey (parsed.map (fun kv => (kv.1, cleanVal kv.2))) "hours" = true)
          · rw [if_pos h1]
            split_ifs with h2
            · exact hasKey_eraseKey_of_not _ _ _ (hasKey_eraseKey_self _ _)
            · exact hasKey_eraseKey_self _ _
          · rw [if_neg h1]
            have hh : hasKey (parsed.map (fun kv => (kv.1, cleanVal kv.2))) "hours" = false := by
              rcases Bool.eq_false_or_eq_true
                  (hasKey (parsed.map (fun kv => (kv.1, cleanVal kv.2))) "hours") with h' | h'
              · exact absurd ⟨by simp [h], h'⟩ h1
              · exact h' 
            split_ifs with h2
            · exact hasKey_eraseKey_of_not _ _ _ hh
            · exact hh
  · simp [hk, hasKey]

/-- Witness for C1 at a concrete input: the message mentions no time
expression, the model nevertheless emits an `hours` field, and the result
contains none. -/
theorem claim_C1_hours_gate_witness :
    check_hours_mentioned "帮忙处理一下合同审阅" = false ∧
    hasKey (call_hunyuan_api true (fun _ => UpstreamOutcome.response ["x"] Option.none)
      (fun _ => some [("hours", PyVal.float 2), ("category", PyVal.str "A")])
      "帮忙处理一下合同审阅" "" Option.none).data "hours" = false :=
  ⟨by decide,
   claim_C1_hours_gate true (fun _ => UpstreamOutcome.response ["x"] Option.none)
     (fun _ => some [("hours", PyVal.float 2), ("category", PyVal.str "A")])
     "帮忙处理一下合同审阅" "" Option.none (by decide)⟩

/-! ## Claim C2: the team/group gate -/

theorem hasKey_eq_false_of_guard {any : Bool} {d : List (String × PyVal)} {k : String}
    (hany : any = false) (hn : ¬(¬any = true ∧ hasKey d k = true)) : hasKey d k = false := by
  rcases Bool.eq_false_or_eq_true (hasKey d k) with h' | h'
  · exact absurd ⟨by simp [hany], h'⟩ hn
  · exact h'

/-- Counterexample to C2 as stated.  The claim demands the team field's
presence in the result to match the presence of a team/group keyword in the
message in BOTH directions, for every upstream model output.  Here the
message contains the keyword `team`, the model emits no team field, and the
result accordingly has none: keyword presence does not force field
presence. -/
theorem claim_C2_counterexample :
    (team_keywords.any (fun kw => containsSub (pyLower "整理team周报") kw)) = true ∧
    hasKey (call_hunyuan_api true (fun _ => UpstreamOutcome.response ["x"] Option.none)
      (fun _ => some []) "整理team周报" "" Option.none).data "team" = false := by
  constructor
  · decide
  · decide

/-- C2 as amended: the gate works in one direction only.  If no keyword of
the fixed team/group set occurs in the lowercased message, the returned
result never contains a `team` key, whatever the upstream produced; when a
keyword does occur, the field's presence follows the model output. -/
theorem claim_C2_team_gate (apiKeyConfigured : Bool)
    (upstream : String → UpstreamOutcome)
    (parseJson : String → Option (List (String × PyVal)))
    (user_message fields_info : String) (center : Option String)
    (hkw : team_keywords.any (fun kw => containsSub (pyLower user_message) kw) = false) :
    hasKey (call_hunyuan_api apiKeyConfigured upstream parseJson
      user_message fields_info center).data "team" = false := by
  unfold call_hunyuan_api
  by_cases hk : apiKeyConfigured
  · simp only [hk, not_true_eq_false, if_false]
    cases hU : upstream (build_system_prompt user_message fields_info center) with
    | timeout => simp [hasKey]
    | exn m => simp [hasKey]
    | response choices errMsg =>
      cases choices with
      | nil => cases errMsg <;> simp [hasKey]
      | cons content rest =>
        dsimp only
        cases hp : parseJson (stripMarkdown content) with
        | none => simp [hasKey]
        | some parsed =>
          dsimp only
          split_ifs with h1 h2 h3
          · exact hasKey_eraseKey_self _ _
          · exact hasKey_eq_false_of_guard hkw h2
          · exact hasKey_eraseKey_self _ _
          · exact hasKey_eq_false_of_guard hkw h3
  · simp [hk, hasKey]

/-- Witness for the amended C2 at a concrete input: the message mentions no
team keyword, the model emits a team field, and the result contains none. -/
theorem claim_C2_team_gate_witness :
    team_keywords.any (fun kw => containsSub (pyLower "帮忙处理一下合同审阅") kw) = false ∧
    hasKey (call_hunyuan_api true (fun _ => UpstreamOutcome.response ["x"] Option.none)
      (fun _ => some [("team", PyVal.str "1组"), ("category", PyVal.str "A")])
      "帮忙处理一下合同审阅" "" Option.none).data "team" = false :=
  ⟨by decide,
   claim_C2_team_gate true (fun _ => UpstreamOutcome.response ["x"] Option.none)
     (fun _ => some [("team", PyVal.str "1组"), ("category", PyVal.str "A")])
     "帮忙处理一下合同审阅" "" Option.none (by decide)⟩

/-! ## Claim C3: which records finalize mutates -/

theorem foldl_latest_mem :
    ∀ (l : List FeedbackRecord) (acc : Option FeedbackRecord) (r : FeedbackRecord),
      l.foldl (fun best r =>
        match best with
        | Option.none => some r
        | some b => if b.id < r.id then some r else some b) acc = some r →
      r ∈ l ∨ acc = some r := by
  intro l
  induction l with
  | nil => exact fun acc r h => Or.inr h
  | cons x t ih =>
    intro acc r h
    rw [List.foldl_cons] at h
    rcases ih _ r h with hm | hacc
    · exact Or.inl (List.mem_cons_of_mem _ hm)
    · cases acc with
      | none =>
        have hx : x = r := by simpa using hacc
        exact Or.inl (by rw [← hx]; exact List.mem_cons_self x t)
      | some b =>
        by_cases hlt : b.id < x.id
        · have hx : x = r := by simpa [hlt] using hacc
          exact Or.inl (by rw [← hx]; exact List.mem_cons_self x t)
        · have hb : some b = some r := by simpa [hlt] using hacc
          exact Or.inr hb

theorem latestFor_mem {store : Store} {session_id : String} {row : FeedbackRecord}
    (h : latestFor store session_id = some row) :
    row ∈ store ∧ row.session_id = session_id := by
  unfold latestFor at h
  rcases foldl_latest_mem _ _ _ h with hm | hacc
  · have := List.mem_filter.mp hm
    exact ⟨this.1, by simpa using this.2⟩
  · cases hacc

/-- Counterexample to C3 as stated.  The claim asserts that only the most
recently created record of the session is mutated.  With two records for
session `s1`, finalize (whose SQL `UPDATE ... WHERE session_id = ?` hits the
whole session) also writes the final values into the EARLIER record
(position 0, id 1, which previously had `final_result = none`). -/
theorem claim_C3_counterexample :
    ((AIFeedback.update_final_result
        [{ id := 1, user_id := 7, session_id := "s1", user_input := "a",
           ai_result := [("category", PyVal.str "A")] },
         { id := 2, user_id := 7, session_id := "s1", user_input := "b",
           ai_result := [("category", PyVal.str "B")] }]
        "s1" [("category", PyVal.str "B")] Option.none 5)[0]?).map
      FeedbackRecord.final_result
      = some (some [("category", PyVal.str "B")]) := by
  decide

/-- C3 as amended: finalize leaves every record of other sessions unchanged
(in place), but mutates EVERY record whose session matches — all of them
receiving the final values, the counters computed from the most recently
created record's extraction result, and the finalize timestamp. -/
theorem claim_C3_finalize_frame (store : Store) (session_id : String)
    (final_result : List (String × PyVal)) (timesheet_id : Option Nat) (now : Nat)
    (row : FeedbackRecord) (hrow : latestFor store session_id = some row) :
    (AIFeedback.update_final_result store session_id final_result timesheet_id now).length
      = store.length ∧
    ∀ (i : Nat) (r : FeedbackRecord), store[i]? = some r →
      (r.session_id ≠ session_id →
        (AIFeedback.update_final_result store session_id final_result timesheet_id now)[i]?
          = some r) ∧
      (r.session_id = session_id →
        (AIFeedback.update_final_result store session_id final_result timesheet_id now)[i]?
          = some { r with
              final_result := some final_result,
              field_count := some (computeCounts row.ai_result final_result).1,
              matched_count := some (computeCounts row.ai_result final_result).2,
              accuracy := some (if (computeCounts row.ai_result final_result).1 > 0
                then ((computeCounts row.ai_result final_result).2 : Rat)
                      / ((computeCounts row.ai_result final_result).1 : Rat) * 100
                else 0),
              timesheet_id := timesheet_id,
              submitted_at := some now }) := by
  unfold AIFeedback.update_final_result
  rw [hrow]
  dsimp only
  constructor
  · exact List.length_map _ _
  · intro i r hi
    constructor
    · intro hne
      rw [List.getElem?_map, hi]
      simp [hne]
    · intro heq
      rw [List.getElem?_map, hi]
      simp [heq]

/-- Witness for the amended C3 at a concrete store: a record of another
session (position 0) survives finalize unchanged, while both records of the
finalized session are mutated. -/
theorem claim_C3_finalize_frame_witness :
    (AIFeedback.update_final_result
        [{ id := 1, user_id := 3, session_id := "s2", user_input := "z",
           ai_result := [("task", PyVal.str "T")] },
         { id := 2, user_id := 7, session_id := "s1", user_input := "a",
           ai_result := [("category", PyVal.str "A")] },
         { id := 3, user_id := 7, session_id := "s1", user_input := "b",
           ai_result := [("category", PyVal.str "B")] }]
        "s1" [("category", PyVal.str "B")] Option.none 5)[0]?
      = some { id := 1, user_id := 3, session_id := "s2", user_input := "z",
               ai_result := [("task", PyVal.str "T")] } :=
  ((claim_C3_finalize_frame
      [{ id := 1, user_id := 3, session_id := "s2", user_input := "z",
         ai_result := [("task", PyVal.str "T")] },
       { id := 2, user_id := 7, session_id := "s1", user_input := "a",
         ai_result := [("category", PyVal.str "A")] },
       { id := 3, user_id := 7, session_id := "s1", user_input := "b",
         ai_result := [("category", PyVal.str "B")] }]
      "s1" [("category", PyVal.str "B")] Option.none 5
      { id := 3, user_id := 7, session_id := "s1", user_input := "b",
        ai_result := [("category", PyVal.str "B")] }
      (by decide)).2 0
      { id := 1, user_id := 3, session_id := "s2", user_input := "z",
        ai_result := [("task", PyVal.str "T")] }
      (by decide)).1 (by decide)

/-! ## Claim C8: finalize on an unknown session is a silent no-op -/

/-- C8.  When no Feedback Record exists for the session identifier,
`update_final_result` surfaces no error and leaves the persisted store
entirely unchanged. -/
theorem claim_C8_finalize_noop (store : Store) (session_id : String)
    (final_result : List (String × PyVal)) (timesheet_id : Option Nat) (now : Nat)
    (h : ∀ r ∈ store, r.session_id ≠ session_id) :
    AIFeedback.update_final_result store session_id final_result timesheet_id now
      = store := by
  have hfilter : store.filter (fun r => r.session_id = session_id) = [] := by
    rw [List.filter_eq_nil_iff]
    intro r hr
    simpa using h r hr
  unfold AIFeedback.update_final_result latestFor
  rw [hfilter]
  rfl

/-- Witness for C8: finalizing session `s1` over a store that only holds a
record of session `s2` returns the store untouched. -/
theorem claim_C8_finalize_noop_witness :
    AIFeedback.update_final_result
      [{ id := 1, user_id := 3, session_id := "s2", user_input := "z",
         ai_result := [("task", PyVal.str "T")] }]
      "s1" [("category", PyVal.str "B")] Option.none 5
      = [{ id := 1, user_id := 3, session_id := "s2", user_input := "z",
           ai_result := [("task", PyVal.str "T")] }] :=
  claim_C8_finalize_noop _ "s1" _ Option.none 5 (by decide)

/-! ## The matching loop characterized (claims C4 and C10) -/

theorem computeCounts_foldl_spec (final_result : List (String × PyVal)) :
    ∀ (ai : List (String × PyVal)) (a b : Nat),
      ai.foldl
        (fun acc kv =>
          if kv.1 = "description" then acc
          else
            match getPy final_result kv.1 with
            | some fv =>
                if valuesMatch kv.2 fv then (acc.1 + 1, acc.2 + 1) else (acc.1 + 1, acc.2)
            | Option.none => (acc.1 + 1, acc.2)) (a, b)
      = (a + (ai.filter (fun kv => kv.1 ≠ "description")).length,
         b + (ai.filter (fun kv => kv.1 ≠ "description" ∧
                finalMatches final_result kv = true)).length) := by
  intro ai
  induction ai with
  | nil => intro a b; simp
  | cons kv t ih =>
    intro a b
    rw [List.foldl_cons]
    by_cases hd : kv.1 = "description"
    · rw [if_pos hd]
      rw [ih a b]
      simp [hd]
    · rw [if_neg hd]
      cases hg : getPy final_result kv.1 with
      | none =>
        dsimp only
        rw [ih (a + 1) b]
        have hm : finalMatches final_result kv = false := by
          simp [finalMatches, hg]
        simp [hd, hm, Nat.add_assoc, Nat.add_comm 1]
      | some fv =>
        dsimp only
        by_cases hv : valuesMatch kv.2 fv
        · rw [if_pos hv, ih (a + 1) (b + 1)]
          have hm : finalMatches final_result kv = true := by
            simp [finalMatches, hg, hv]
          simp [hd, hm, Nat.add_assoc, Nat.add_comm 1]
        · rw [if_neg hv, ih (a + 1) b]
          have hm : finalMatches final_result kv = false := by
            simp [finalMatches, hg]
            simpa using hv
          simp [hd, hm, Nat.add_assoc, Nat.add_comm 1]

theorem computeCounts_eq (ai_result final_result : List (String × PyVal)) :
    computeCounts ai_result final_result
      = ((ai_result.filter (fun kv => kv.1 ≠ "description")).length,
         (ai_result.filter (fun kv => kv.1 ≠ "description" ∧
            finalMatches final_result kv = true)).length) := by
  unfold computeCounts
  rw [computeCounts_foldl_spec]
  simp

/-! ## Claim C4: the stored accuracy value -/

/-- C4.  Finalize stores `accuracy = matched / comparable × 100`, where the
comparable fields are exactly the non-`description` keys of the original
extraction result, and stores `0` when there are no comparable fields
instead of dividing by zero. -/
theorem claim_C4_accuracy (store : Store) (session_id : String)
    (final_result : List (String × PyVal)) (timesheet_id : Option Nat) (now : Nat)
    (row : FeedbackRecord) (i : Nat)
    (hrow : latestFor store session_id = some row)
    (hi : store[i]? = some row) :
    ((AIFeedback.update_final_result store session_id final_result timesheet_id now)[i]?).map
        FeedbackRecord.accuracy
      = some (some (if (computeCounts row.ai_result final_result).1 = 0 then 0
          else ((computeCounts row.ai_result final_result).2 : Rat)
                / ((computeCounts row.ai_result final_result).1 : Rat) * 100)) ∧
    (computeCounts row.ai_result final_result).1
      = (row.ai_result.filter (fun kv => kv.1 ≠ "description")).length := by
  constructor
  · have hs : row.session_id = session_id := (latestFor_mem hrow).2
    unfold AIFeedback.update_final_result
    rw [hrow]
    dsimp only
    rw [List.getElem?_map, hi]
    simp [hs]
    by_cases h0 : (computeCounts row.ai_result final_result).1 = 0
    · simp [h0]
    · simp [h0, Nat.pos_of_ne_zero h0]
  · rw [computeCounts_eq]

/-- Witness for C4 at two concrete stores: 4 comparable fields with 3
matching store accuracy 75, and 0 comparable fields (the extraction result
holds only `description`) store accuracy 0. -/
theorem claim_C4_accuracy_witness :
    ((AIFeedback.update_final_result
        [{ id := 1, user_id := 7, session_id := "s1", user_input := "a",
           ai_result := [("category", PyVal.str "A"), ("task", PyVal.str "T"),
                         ("tag", PyVal.str "G"), ("team", PyVal.str "1组"),
                         ("description", PyVal.str "d")] }]
        "s1"
        [("category", PyVal.str "A"), ("task", PyVal.str "T"),
         ("tag", PyVal.str "G"), ("team", PyVal.str "2组")]
        Option.none 5)[0]?).map FeedbackRecord.accuracy
      = some (some 75) ∧
    ((AIFeedback.update_final_result
        [{ id := 1, user_id := 7, session_id := "s9", user_input := "a",
           ai_result := [("description", PyVal.str "d")] }]
        "s9" [] Option.none 5)[0]?).map FeedbackRecord.accuracy
      = some (some 0) := by
  constructor
  · have h := (claim_C4_accuracy
      [{ id := 1, user_id := 7, session_id := "s1", user_input := "a",
         ai_result := [("category", PyVal.str "A"), ("task", PyVal.str "T"),
                       ("tag", PyVal.str "G"), ("team", PyVal.str "1组"),
                       ("description", PyVal.str "d")] }]
      "s1"
      [("category", PyVal.str "A"), ("task", PyVal.str "T"),
       ("tag", PyVal.str "G"), ("team", PyVal.str "2组")]
      Option.none 5
      { id := 1, user_id := 7, session_id := "s1", user_input := "a",
        ai_result := [("category", PyVal.str "A"), ("task", PyVal.str "T"),
                      ("tag", PyVal.str "G"), ("team", PyVal.str "1组"),
                      ("description", PyVal.str "d")] }
      0 (by decide) (by decide)).1
    refine h.trans ?_
    have hc : computeCounts
        [("category", PyVal.str "A"), ("task", PyVal.str "T"),
         ("tag", PyVal.str "G"), ("team", PyVal.str "1组"),
         ("description", PyVal.str "d")]
        [("category", PyVal.str "A"), ("task", PyVal.str "T"),
         ("tag", PyVal.str "G"), ("team", PyVal.str "2组")] = (4, 3) := by decide
    rw [hc]
    norm_num
  · have h := (claim_C4_accuracy
      [{ id := 1, user_id := 7, session_id := "s9", user_input := "a",
         ai_result := [("description", PyVal.str "d")] }]
      "s9" [] Option.none 5
      { id := 1, user_id := 7, session_id := "s9", user_input := "a",
        ai_result := [("description", PyVal.str "d")] }
      0 (by decide) (by decide)).1
    refine h.trans ?_
    have hc : computeCounts [("description", PyVal.str "d")]
        ([] : List (String × PyVal)) = (0, 0) := by decide
    rw [hc]
    norm_num

/-! ## Claim C10: the comparable/matched field rule -/

theorem lookup_append_single {β : Type} (fv : List (String × β)) (k k' : String) (v : β)
    (h : k' ≠ k) : List.lookup k' (fv ++ [(k, v)]) = List.lookup k' fv := by
  induction fv with
  | nil =>
    have hb : (k' == k) = false := beq_eq_false_iff_ne.mpr h
    simp [List.lookup, hb]
  | cons x t ih =>
    obtain ⟨a, b⟩ := x
    by_cases hx : k' = a
    · simp [List.lookup, hx]
    · have hb : (k' == a) = false := beq_eq_false_iff_ne.mpr hx
      simp only [List.cons_append, List.lookup, hb]
      simpa using ih

theorem getPy_append_single (fv : List (String × PyVal)) (k k' : String) (v : PyVal)
    (h : k' ≠ k) : getPy (fv ++ [(k, v)]) k' = getPy fv k' := by
  unfold getPy
  rw [lookup_append_single fv k k' v h]

/-- C10.  In finalize's match computation: every non-`description` key of
the original extraction result is a comparable field (even when the final
values omit it, in which case it counts as unmatched, never skipped); keys
present only in the final values are ignored entirely; and a field matches
exactly when both values are numeric with absolute difference below `0.01`,
or otherwise when their trimmed string renderings agree. -/
theorem claim_C10_matching_rule (ai_result final_result : List (String × PyVal)) :
    (computeCounts ai_result final_result).1
      = (ai_result.filter (fun kv => kv.1 ≠ "description")).length ∧
    (computeCounts ai_result final_result).2
      = (ai_result.filter (fun kv => kv.1 ≠ "description" ∧
           finalMatches final_result kv = true)).length ∧
    (∀ (k : String) (v : PyVal), hasKey ai_result k = false →
      computeCounts ai_result (final_result ++ [(k, v)])
        = computeCounts ai_result final_result) ∧
    (∀ a f : PyVal, valuesMatch a f = true ↔
      ((isNumericPy a = true ∧ isNumericPy f = true) ∧ |toQ a - toQ f| < 1 / 100) ∨
      (¬(isNumericPy a = true ∧ isNumericPy f = true) ∧
        pyStrip (pyStr a) = pyStrip (pyStr f))) := by
  refine ⟨by rw [computeCounts_eq], by rw [computeCounts_eq], ?_, ?_⟩
  · intro k v hk
    rw [computeCounts_eq, computeCounts_eq]
    have hkeys : ∀ kv ∈ ai_result, kv.1 ≠ k := by
      simp only [hasKey, List.any_eq_false, decide_eq_true_eq] at hk
      exact hk
    have hfil : ai_result.filter (fun kv => kv.1 ≠ "description" ∧
          finalMatches (final_result ++ [(k, v)]) kv = true)
        = ai_result.filter (fun kv => kv.1 ≠ "description" ∧
          finalMatches final_result kv = true) := by
      apply List.filter_congr
      intro kv hkv
      have : finalMatches (final_result ++ [(k, v)]) kv = finalMatches final_result kv := by
        unfold finalMatches
        rw [getPy_append_single final_result k kv.1 v (hkeys kv hkv)]
      rw [this]
    rw [hfil]
  · intro a f
    by_cases hn : isNumericPy a = true ∧ isNumericPy f = true
    · simp [valuesMatch, hn]
    · simp [valuesMatch, hn]

/-- Witness for C10: appending a key absent from the extraction result to
the final values leaves both counters unchanged. -/
theorem claim_C10_matching_rule_witness :
    computeCounts [("category", PyVal.str "A"), ("description", PyVal.str "d")]
        ([("category", PyVal.str "A")] ++ [("extra", PyVal.str "E")])
      = computeCounts [("category", PyVal.str "A"), ("description", PyVal.str "d")]
          [("category", PyVal.str "A")] :=
  (claim_C10_matching_rule
      [("category", PyVal.str "A"), ("description", PyVal.str "d")]
      [("category", PyVal.str "A")]).2.2.1 "extra" (PyVal.str "E") (by decide)

/-! ## Claim C6: teamName-based routing -/

/-- C6.  With no explicit center in the request and a team name containing
`投资法务` or `investment` (case-insensitively), routing is decided by the
team-name match alone: the inferred center is `invest`, the selected
business prompt is the investment-legal one, and the resolved center is
independent of the message and schema (the keyword scan is never
consulted). -/
theorem claim_C6_teamname_routing
    (team_name user_message fields_info user_message' fields_info' : String)
    (h : (containsSub (pyLower team_name) "投资法务"
          || containsSub (pyLower team_name) "investment") = true) :
    infer_center Option.none team_name = some "invest" ∧
    select_business_prompt
        (resolve_center (infer_center Option.none team_name) user_message fields_info)
      = INVEST_LEGAL_PROMPT ∧
    resolve_center (infer_center Option.none team_name) user_message fields_info
      = resolve_center (infer_center Option.none team_name) user_message' fields_info' := by
  have hne : team_name ≠ "" := fun he => absurd (he ▸ h) (by decide)
  have h1 : infer_center Option.none team_name = some "invest" := by
    unfold infer_center
    rw [if_pos ⟨rfl, hne⟩, if_pos h]
  refine ⟨h1, ?_, ?_⟩
  · rw [h1]
    simp [resolve_center, select_business_prompt]
  · rw [h1]
    rfl

/-- Witness for C6 at a concrete team name. -/
theorem claim_C6_teamname_routing_witness :
    infer_center Option.none "投资法务中心一组" = some "invest" ∧
    select_business_prompt
        (resolve_center (infer_center Option.none "投资法务中心一组") "随便写点什么" "")
      = INVEST_LEGAL_PROMPT ∧
    resolve_center (infer_center Option.none "投资法务中心一组") "随便写点什么" ""
      = resolve_center (infer_center Option.none "投资法务中心一组") "合规检测项目" "x" :=
  claim_C6_teamname_routing "投资法务中心一组" "随便写点什么" "" "合规检测项目" "x" (by decide)

/-! ## Claim C7: parse failure versus transport failure -/

/-- C7.  When the upstream returned a completion body that does not parse
as JSON (after fence stripping), the client reports `success = true` with
empty data, the `parse_error` flag, and the stripped raw text; a timeout of
the fixed-30-unit request instead reports `success = false` with an error
message — the two outcomes are distinguishable. -/
theorem claim_C7_parse_vs_timeout
    (upstream : String → UpstreamOutcome)
    (parseJson : String → Option (List (String × PyVal)))
    (user_message fields_info : String) (center : Option String)
    (content : String) (rest : List String) (errMsg : Option String)
    (hresp : upstream (build_system_prompt user_message fields_info center)
      = UpstreamOutcome.response (content :: rest) errMsg)
    (hparse : parseJson (stripMarkdown content) = Option.none) :
    call_hunyuan_api true upstream parseJson user_message fields_info center
      = { success := true, data := [], raw := some (stripMarkdown content),
          parse_error := true } ∧
    (∀ (upstream' : String → UpstreamOutcome)
        (parseJson' : String → Option (List (String × PyVal)))
        (msg' fields' : String) (center' : Option String),
      upstream' (build_system_prompt msg' fields' center') = UpstreamOutcome.timeout →
      call_hunyuan_api true upstream' parseJson' msg' fields' center'
        = { success := false, error := some "API请求超时" }) ∧
    request_timeout_seconds = 30 := by
  refine ⟨?_, ?_, rfl⟩
  · unfold call_hunyuan_api
    rw [if_neg (by simp)]
    dsimp only
    rw [hresp]
    dsimp only
    rw [hparse]
  · intro u' p' m' f' c' ht
    unfold call_hunyuan_api
    rw [if_neg (by simp)]
    dsimp only
    rw [ht]

/-- Witness for C7: a concrete unparseable body and a concrete timeout. -/
theorem claim_C7_parse_vs_timeout_witness :
    call_hunyuan_api true (fun _ => UpstreamOutcome.response ["notjson"] Option.none)
      (fun _ => Option.none) "开会" "" Option.none
      = { success := true, data := [], raw := some (stripMarkdown "notjson"),
          parse_error := true } ∧
    call_hunyuan_api true (fun _ => UpstreamOutcome.timeout) (fun _ => Option.none)
      "开会" "" Option.none
      = { success := false, error := some "API请求超时" } :=
  have h := claim_C7_parse_vs_timeout
    (fun _ => UpstreamOutcome.response ["notjson"] Option.none)
    (fun _ => Option.none) "开会" "" Option.none "notjson" [] Option.none rfl rfl
  ⟨h.1, h.2.1 (fun _ => UpstreamOutcome.timeout) (fun _ => Option.none) "开会" "" Option.none rfl⟩

/-! ## Claim C9: inbound request validation -/

/-- Counterexample to C9 as stated.  The claim requires a request missing
the required `fields` to be rejected as a caller error.  A request carrying
a message but no `fields` key is NOT rejected: the endpoint proceeds (with
an empty schema) all the way to the upstream call. -/
theorem claim_C9_counterexample :
    (parse_timesheet true (fun _ => UpstreamOutcome.timeout) (fun _ => Option.none)
      (some { message := some "帮忙填一下工时", fields := Option.none,
              center := Option.none, teamName := Option.none })).isBadRequest = false :=
  rfl

/-- C9 as amended: the endpoint rejects a request exactly when the body is
missing/empty or the `message` is missing/empty — with a human-readable
reason and without consulting the upstream; a missing `fields` list is
accepted and defaults to the empty schema. -/
theorem claim_C9_validation (apiKeyConfigured : Bool)
    (upstream : String → UpstreamOutcome)
    (parseJson : String → Option (List (String × PyVal)))
    (req : Option ParseRequest) :
    ((parse_timesheet apiKeyConfigured upstream parseJson req).isBadRequest
      = (match req with
         | Option.none => true
         | some d => decide (d.message.getD "" = ""))) ∧
    (parse_timesheet apiKeyConfigured upstream parseJson Option.none
      = ParseOutcome.badRequest "请求数据为空") ∧
    (∀ d : ParseRequest, d.message.getD "" = "" →
      parse_timesheet apiKeyConfigured upstream parseJson (some d)
        = ParseOutcome.badRequest "消息内容为空") := by
  refine ⟨?_, rfl, ?_⟩
  · cases req with
    | none => rfl
    | some d =>
      by_cases hm : d.message.getD "" = ""
      · simp [parse_timesheet, hm, ParseOutcome.isBadRequest]
      · simp [parse_timesheet, hm, ParseOutcome.isBadRequest]
  · intro d hm
    simp [parse_timesheet, hm]

/-- Witness for the amended C9: a request whose message is absent is
rejected with the message-empty reason. -/
theorem claim_C9_validation_witness :
    parse_timesheet true (fun _ => UpstreamOutcome.timeout) (fun _ => Option.none)
      (some { message := Option.none, fields := some [], center := Option.none,
              teamName := Option.none })
      = ParseOutcome.badRequest "消息内容为空" :=
  (claim_C9_validation true (fun _ => UpstreamOutcome.timeout) (fun _ => Option.none)
      (some { message := Option.none, fields := some [], center := Option.none,
              teamName := Option.none })).2.2
    { message := Option.none, fields := some [], center := Option.none,
      teamName := Option.none } rfl

/-! ## Claim C5: the flattened options catalog -/

theorem listStarts_iff (n : List Char) : ∀ h : List Char, listStarts n h = true ↔ n <+: h := by
  induction n with
  | nil => intro h; simp [listStarts]
  | cons a as ih =>
    intro h
    cases h with
    | nil => simp [listStarts]
    | cons b bs =>
      simp [listStarts, Bool.and_eq_true, decide_eq_true_eq, ih, List.cons_prefix_cons]

theorem infixAt_iff (n h : List Char) : infixAt n h = true ↔ n <:+: h := by
  induction h with
  | nil => simp [infixAt, listStarts_iff, List.prefix_nil, List.infix_nil]
  | cons c t ih => simp [infixAt, listStarts_iff, ih, List.infix_cons_iff]

theorem containsSub_iff (hay needle : String) :
    containsSub hay needle = true ↔ needle.data <:+: hay.data := by
  simp [containsSub, infixAt_iff]

theorem containsSub_append_right (a b needle : String)
    (h : containsSub b needle = true) : containsSub (a ++ b) needle = true := by
  rw [containsSub_iff] at *
  rw [String.data_append]
  exact h.trans (by simpa using List.infix_append a.data b.data [])

theorem containsSub_append_left (a b needle : String)
    (h : containsSub a needle = true) : containsSub (a ++ b) needle = true := by
  rw [containsSub_iff] at *
  rw [String.data_append]
  exact h.trans (by simpa using List.infix_append [] a.data b.data)

theorem mem_joinSep_infix (sep : String) :
    ∀ (l : List String) (v : String), v ∈ l → v.data <:+: (joinSep sep l).data := by
  intro l
  induction l with
  | nil => intro v hv; cases hv
  | cons a t ih =>
    intro v hv
    cases t with
    | nil =>
      have hva : v = a := by simpa using hv
      subst hva
      simp [joinSep]
    | cons b t2 =>
      rcases List.mem_cons.mp hv with rfl | hm
      · show v.data <:+: (v ++ sep ++ joinSep sep (b :: t2)).data
        rw [String.data_append, String.data_append]
        exact ⟨[], sep.data ++ (joinSep sep (b :: t2)).data, by simp⟩
      · have hvj := ih v hm
        show v.data <:+: (a ++ sep ++ joinSep sep (b :: t2)).data
        rw [String.data_append, String.data_append]
        exact hvj.trans ⟨a.data ++ sep.data, [], by simp⟩

theorem forall2_getElem? {α β : Type} {R : α → β → Prop} :
    ∀ {l₁ : List α} {l₂ : List β}, List.Forall₂ R l₁ l₂ →
      ∀ (i : Nat) (x : α) (y : β), l₁[i]? = some x → l₂[i]? = some y → R x y := by
  intro l₁ l₂ h
  induction h with
  | nil => intro i x y hx hy; simp at hx
  | cons hr hrest ih =>
    intro i x y hx hy
    cases i with
    | zero => simp_all
    | succ j =>
      simp only [List.getElem?_cons_succ] at hx hy
      exact ih j x y hx hy

mutual
theorem flattenOne_suffix (parent : String) (o : OptionNode) :
    List.Forall₂ (fun e v => v.data <:+ e.data) (flattenOne parent o) (valuesOne o) := by
  cases o with
  | mk v l cs =>
    rw [flattenOne, valuesOne]
    refine List.Forall₂.cons ⟨(optionEntryPfx parent).data, (String.data_append _ _).symm⟩ ?_
    by_cases hc : cs.isEmpty
    · simp [hc]
    · simp only [hc, if_false]
      exact flattenList_suffix l cs

theorem flattenList_suffix (parent : String) (os : List OptionNode) :
    List.Forall₂ (fun e v => v.data <:+ e.data) (flattenList parent os) (valuesList os) := by
  cases os with
  | nil => simp [flattenList, valuesList]
  | cons o rest =>
    rw [flattenList, valuesList]
    exact List.rel_append (flattenOne_suffix parent o) (flattenList_suffix parent rest)
end

set_option maxRecDepth 16000 in
/-- Counterexample to C5 as stated.  The claim reads the trailing marker as
"...and N more" with N the number of entries beyond the 80-entry limit.
With 81 flattened entries the code emits `... 等共81个选项` ("81 options in
total"): the number in the marker is the TOTAL count (81), not the overflow
count (1). -/
theorem claim_C5_counterexample :
    (flattenList "" ((List.range 81).map
        (fun i => OptionNode.mk ("v" ++ toString i) ("L" ++ toString i) []))).length = 81 ∧
    containsSub
      (field_desc
        { key := "tag", label := "标签", required := true,
          options := (List.range 81).map
            (fun i => OptionNode.mk ("v" ++ toString i) ("L" ++ toString i) []) })
      "等共81个选项" = true ∧
    containsSub
      (field_desc
        { key := "tag", label := "标签", required := true,
          options := (List.range 81).map
            (fun i => OptionNode.mk ("v" ++ toString i) ("L" ++ toString i) []) })
      "等共1个选项" = false :=
  ⟨by decide, by decide, by decide⟩

/-- C5 as amended.  When the flattened catalog exceeds 80 entries the field
description consists of the key/label/required line, exactly the first 80
entries in depth-first order joined by ", ", and a trailing marker stating
the TOTAL entry count; every one of those first 80 entries appears verbatim
in the text, and hence so does the bare option value underlying any of the
first 80 entries (each entry being its value with its parent-label
prefix). -/
theorem claim_C5_flattening (f : FormField)
    (hlen : 80 < (flattenList "" f.options).length) :
    field_desc f
      = (if f.required then "- " ++ f.key ++ ": " ++ f.label ++ " (必填)"
         else "- " ++ f.key ++ ": " ++ f.label)
        ++ "\n  可选值: " ++ joinSep ", " ((flattenList "" f.options).take 80)
        ++ " ... 等共" ++ toString (flattenList "" f.options).length ++ "个选项" ∧
    (∀ v ∈ (flattenList "" f.options).take 80, containsSub (field_desc f) v = true) ∧
    (∀ (i : Nat) (v e : String), i < 80 →
      (valuesList f.options)[i]? = some v →
      (flattenList "" f.options)[i]? = some e →
      containsSub (field_desc f) v = true) := by
  have hne : f.options ≠ [] := by
    intro he
    rw [he] at hlen
    simp [flattenList] at hlen
  have hoptsEmpty : ¬(f.options.isEmpty = true) := by
    simp [List.isEmpty_iff, hne]
  have hflatne : flattenList "" f.options ≠ [] :=
    List.ne_nil_of_length_pos (by omega)
  have hflatEmpty : ¬((flattenList "" f.options).isEmpty = true) := by
    simp [List.isEmpty_iff, hflatne]
  have heq : field_desc f
      = (if f.required then "- " ++ f.key ++ ": " ++ f.label ++ " (必填)"
         else "- " ++ f.key ++ ": " ++ f.label)
        ++ "\n  可选值: " ++ joinSep ", " ((flattenList "" f.options).take 80)
        ++ " ... 等共" ++ toString (flattenList "" f.options).length ++ "个选项" := by
    unfold field_desc
    dsimp only
    rw [if_pos hoptsEmpty, if_pos hflatEmpty, if_pos hlen]
  have hsub : ∀ v ∈ (flattenList "" f.options).take 80,
      containsSub (field_desc f) v = true := by
    intro v hv
    have hvJ := mem_joinSep_infix ", " ((flattenList "" f.options).take 80) v hv
    rw [heq]
    apply containsSub_append_left
    apply containsSub_append_left
    apply containsSub_append_left
    apply containsSub_append_right
    rw [containsSub_iff]
    exact hvJ
  refine ⟨heq, hsub, ?_⟩
  intro i v e hi hv he
  have hsuf : v.data <:+ e.data :=
    forall2_getElem? (flattenList_suffix "" f.options) i e v he hv
  have heTake : ((flattenList "" f.options).take 80)[i]? = some e := by
    rw [List.getElem?_take]
    simp [hi, he]
  have hemem : e ∈ (flattenList "" f.options).take 80 := List.getElem?_mem heTake
  have hce := hsub e hemem
  rw [containsSub_iff] at hce ⊢
  exact hsuf.isInfix.trans hce

set_option maxRecDepth 16000 in
/-- Witness for the amended C5 at the 81-entry catalog: the entry `v7`
(within the first 80) appears verbatim in the rendered field description. -/
theorem claim_C5_flattening_witness :
    containsSub
      (field_desc
        { key := "tag", label := "标签", required := true,
          options := (List.range 81).map
            (fun i => OptionNode.mk ("v" ++ toString i) ("L" ++ toString i) []) })
      "v7" = true :=
  (claim_C5_flattening
    { key := "tag", label := "标签", required := true,
      options := (List.range 81).map
        (fun i => OptionNode.mk ("v" ++ toString i) ("L" ++ toString i) []) }
    (by decide)).2.1 "v7" (by decide)

end LegalDashboard
